import Mathlib

/-!
A verification development for the `locatible_Pyjob` clamp-truck job
monitor.  The Python sources (`job_monitor.py`, `database.py`,
`models.py`, `helpers.py`) are shallowly embedded below: timestamps are
rationals (seconds with sub-second precision, `delta_seconds` becomes
subtraction), Python floats become rationals, database reads become
oracle parameters, and database writes become an explicit effect list.
The Euclidean metric of `helpers.get_distance` (a floating-point square
root) is abstracted as an oracle function `dist`, since every property
proved here is independent of the metric's values and depends only on
which samples pass a distance comparison.
-/

namespace JobMon

/-- Rational scalars stand in for the source's Python floats and
timestamps. -/
abbrev Q := ℚ

/-- 2-D coordinates: `helpers.get_distance` operates on dicts with keys
`x` and `y`. -/
structure Coords where
  x : Q
  y : Q
  deriving DecidableEq, Repr

/-- Python's `round(x)` (banker's rounding: halves go to the even
neighbour), the rounding used by `round(x, 2)` in the source. -/
def pyRound (q : Q) : ℤ :=
  let f : ℤ := ⌊q⌋
  let r : Q := q - f
  if r < 1/2 then f
  else if 1/2 < r then f + 1
  else if f % 2 = 0 then f else f + 1

/-- `round(x, 2)` as used by `models.Trip.finished` and
`job_monitor.JobMonitor.get_task_avg_speed`. -/
def round2 (q : Q) : Q := (pyRound (q * 100) : Q) / 100

/-- `models.Trip`: one sub-leg of a carry.  `dest` and `finish_time`
are `None` while the trip is open. -/
structure Trip where
  carry_num : Nat
  start_time : Q
  finish_time : Option Q
  origin : Nat
  dest : Option Nat
  travel_time : Q
  distance : Q
  avg_speed : Q
  speeds : List Q
  latest_coords : Option Coords
  deriving DecidableEq, Repr

/-- `models.Trip.__init__`. -/
def Trip.new (carry_num : Nat) (start_time : Q) (start_loc : Nat) : Trip :=
  { carry_num := carry_num, start_time := start_time, finish_time := none,
    origin := start_loc, dest := none, travel_time := 0, distance := 0,
    avg_speed := 0, speeds := [], latest_coords := none }

/-- `models.Trip.append_speed`. -/
def Trip.append_speed (tr : Trip) (speed : Q) : Trip :=
  { tr with speeds := tr.speeds ++ [speed] }

/-- `models.Trip.append_coords`; the metric `dist` abstracts
`helpers.get_distance`. -/
def Trip.append_coords (dist : Coords → Coords → Q) (tr : Trip) (coords : Coords) : Trip :=
  match tr.latest_coords with
  | some lc => { tr with distance := tr.distance + dist lc coords, latest_coords := some coords }
  | none => { tr with latest_coords := some coords }

/-- `models.Trip.finished`: sets the average speed, finish time, travel
time (`finish - start` seconds, the embedding of the `datetime`
difference) and destination. -/
def Trip.finished (tr : Trip) (location : Nat) (time : Q) : Trip :=
  { tr with
    avg_speed := if tr.speeds.isEmpty then 0 else round2 (tr.speeds.sum / (tr.speeds.length : Q)),
    finish_time := some time,
    travel_time := time - tr.start_time,
    dest := some location }

/-- `models.Carry`: one load cycle, holding its trips and aggregates. -/
structure Carry where
  carry_num : Nat
  start_time : Q
  finish_time : Option Q
  unit_count : Option Nat
  origin : Nat
  dest : Option Nat
  trips : List Trip
  stow_time : Q
  dock_time : Q
  total_distance : Q
  avg_trip_distance : Q
  avg_trip_time : Q
  deriving DecidableEq, Repr

/-- `models.Carry.append_trip`. -/
def Carry.append_trip (c : Carry) (start_time : Q) (start_loc : Nat) : Carry :=
  { c with trips := c.trips ++ [Trip.new c.carry_num start_time start_loc] }

/-- `models.Carry.__init__` (the constructor immediately appends the
carry's first trip). -/
def Carry.new (carry_num : Nat) (start_time : Q) (start_loc : Nat) : Carry :=
  Carry.append_trip
    { carry_num := carry_num, start_time := start_time, finish_time := none,
      unit_count := none, origin := start_loc, dest := none, trips := [],
      stow_time := 0, dock_time := 0, total_distance := 0,
      avg_trip_distance := 0, avg_trip_time := 0 }
    start_time start_loc

/-- `models.Carry.add_stow_time` (`get_time_delta` is timestamp
subtraction). -/
def Carry.add_stow_time (c : Carry) (prev_loc_time curr_loc_time : Q) : Carry :=
  { c with stow_time := c.stow_time + (curr_loc_time - prev_loc_time) }

/-- `models.Carry.add_dock_time`. -/
def Carry.add_dock_time (c : Carry) (prev_loc_time curr_loc_time : Q) : Carry :=
  { c with dock_time := c.dock_time + (curr_loc_time - prev_loc_time) }

/-- `models.Carry.finished`: accumulates `total_distance` and the trips'
travel times (the source loops `self.total_distance += trip.distance`),
then computes the per-trip averages when at least one trip exists. -/
def Carry.finished (c : Carry) (location : Nat) (item_count : Nat) (time : Q) : Carry :=
  let total := c.total_distance + (c.trips.map (fun tr => tr.distance)).sum
  let travel_time_accumulator := (c.trips.map (fun tr => tr.travel_time)).sum
  let trip_count := c.trips.length
  { c with
    dest := some location,
    unit_count := some item_count,
    finish_time := some time,
    total_distance := total,
    avg_trip_distance := if 0 < trip_count then total / (trip_count : Q) else c.avg_trip_distance,
    avg_trip_time := if 0 < trip_count then travel_time_accumulator / (trip_count : Q) else c.avg_trip_time }

/-- `models.Task`: immutable identity plus mutable completion state. -/
structure Task where
  task_id : Nat
  complete : Bool
  model : String
  item_id : Option Nat
  origin : Nat
  dest : Nat
  start_time : Option Q
  finish_time : Option Q
  avg_speed : Option Q
  deriving DecidableEq, Repr

/-- `models.Task.__init__`. -/
def Task.new (task_id : Nat) (model : String) (origin dest : Nat) : Task :=
  { task_id := task_id, complete := false, model := model, item_id := none,
    origin := origin, dest := dest, start_time := none, finish_time := none,
    avg_speed := none }

/-- An item record as produced by `database.__get_load_data` /
`get_item_data`: keys `id`, `model`, `item_origin` (the item's
`curr_loc_id`), `serial_lock`, `correct_loc_id` (initially `None`). -/
structure Item where
  id : Nat
  model : String
  item_origin : Nat
  serial_lock : Nat
  correct_loc_id : Option Nat
  deriving DecidableEq, Repr

/-- A row of the `get_model_alerts` query.  `database.py` line 413
projects only `a.id` (`SELECT a.id FROM alerts a INNER JOIN items i
...`), so with the dictionary cursor each returned row carries the
single key `id`. -/
structure AlertRow where
  id : Nat
  deriving DecidableEq, Repr

/-- Python's `row[key]` on a `get_model_alerts` row: the only present
key is `id`; any other key raises `KeyError`. -/
def AlertRow.getKey (r : AlertRow) (key : String) : Except String Nat :=
  if key = "id" then Except.ok r.id
  else Except.error ("KeyError: " ++ key)

/-- The outcome of running a fragment of Python code that may raise an
exception: `raised` propagates the exception, and carries the in-memory
state as mutated up to the point of the raise (in Python those
mutations persist while the exception unwinds). -/
inductive Run (α : Type) where
  | ok (a : α)
  | raised (e : String) (a : α)
  deriving DecidableEq, Repr

/-- The in-memory state carried by a `Run` outcome. -/
def Run.state {α : Type} : Run α → α
  | Run.ok a => a
  | Run.raised _ a => a

/-- A mutating database call made by the monitor, recorded instead of
executed (the store itself is out of scope). -/
inductive Effect where
  | save_item_loc (item_id : Nat) (loc : Nat)
  | save_task (t : Task)
  | cancel_alert (alert_id : Nat)
  | cancel_item_alerts (items : List Item)
  | cancel_alerts_by_type (alert_type : String)
  | create_alert (loc : Nat) (alert_type : String) (items : Option (List Item)) (ts : Q)
  | cancel_remaining_tasks_alert (loc : Nat)
  | save_carries (carries : List Carry)
  | save_job
  deriving DecidableEq, Repr

/-- The configuration keys the monitor reads (`helpers.get_config`). -/
structure Config where
  pickup_check_distance_trigger : Q
  pickup_check_distance_window : Q
  pickup_post_seconds : Q
  drop_check_distance : Q
  drop_pre_seconds : Q
  deriving DecidableEq, Repr

/-- The read side of the data-access interface (`database.Database`),
plus the Euclidean metric of `helpers.get_distance`.  The fields
`has_cannot_place_alerts` / `has_Damaged_Item_alerts` are modelled from
the spec (section 9 calls them an open question): they are the values
the missing `Database` predicates of those names would return if they
were implemented; the attribute lookup for them fails, so they are never
consulted on a reachable path. -/
structure Oracle where
  dist : Coords → Coords → Q
  loc_has_active_dl_alerts : Nat → Bool
  get_model_alerts : Item → List AlertRow
  has_active_alerts : Bool
  get_pickup_data : Coords → Q → List Nat
  get_drop_data : Q → Q → List Item
  has_cannot_place_alerts : Bool
  has_Damaged_Item_alerts : Bool

/-- The in-memory state of one `JobMonitor`, including the local
variables of its `run` loop (`pickup_check`/`drop_check` gates, the
armed pickup/drop coordinates and times, `active_pickup_event`). -/
structure State where
  config : Config
  curr_loc_id : Nat
  curr_loc_type : String
  curr_loc_time : Q
  curr_loc_coords : Coords
  prev_loc_time : Option Q
  pickup_check : Bool
  correct_origins : List Nat
  correct_dests : List Nat
  pickup_history : List Nat
  drop_history : List Nat
  latest_pickup_item_ids : List Nat
  tasks : List Task
  task_completion_times : List Q
  speed_accumulator : List Q
  carries : List Carry
  job_start_time : Q
  previous_clamp_status : Nat
  drop_check : Bool
  curr_pickup_coords : Option Coords
  curr_pickup_time : Option Q
  curr_drop_coords : Option Coords
  curr_drop_time : Option Q
  active_pickup_event : Bool
  deriving DecidableEq, Repr

/-- The hard-coded "Not-OK elsewhere" sink, `JobMonitor.__NOE_loc`. -/
def NOE_loc : Nat := 79

/-- The methods defined on the `Database` class in `database.py`, in
source order.  This is the attribute table a lookup
`self.db_connection.<name>` resolves against. -/
def databaseMethods : List String :=
  ["__init__", "__init_db", "close_db", "is_job_active", "get_task_data",
   "get_loc_data", "has_active_alerts", "loc_has_active_dl_alerts",
   "__wait_for_rfid_data", "__get_load_data", "__get_load_data_inside_circle",
   "get_drop_data", "get_pickup_data", "get_item_data", "save_item_loc",
   "create_alert", "get_model_alerts", "cancel_alert", "cancel_alerts",
   "cancel_item_alerts", "cancel_model_alerts", "cancel_remaining_tasks_alert",
   "save_job", "save_task", "save_carries", "__save_trips"]

/-- A Python attribute access on the `Database` handler: it succeeds
exactly when `database.py` defines a method of that name, and raises
`AttributeError` otherwise. -/
def dbAttrCall (name : String) : Except String Unit :=
  if databaseMethods.contains name then Except.ok ()
  else Except.error ("AttributeError: Database object has no attribute " ++ name)

/-- `JobMonitor.has_active_tasks`. -/
def has_active_tasks (tasks : List Task) : Bool :=
  tasks.any (fun t => !t.complete)

/-- `JobMonitor.clamp_check_enabled`: the current location is neither an
aisle nor the charging area. -/
def clamp_check_enabled (st : State) : Bool :=
  st.curr_loc_type != "aisle" && st.curr_loc_type != "charging"

/-- `JobMonitor.event_distance_check`: the distance from the current
coordinates to the clamp-event coordinates exceeds the threshold. -/
def event_distance_check (o : Oracle) (st : State) (threshold : Q) (clamp_event_coords : Coords) : Bool :=
  decide (threshold < o.dist st.curr_loc_coords clamp_event_coords)

/-- The pickup edge from `JobMonitor.run`: previous clamp status had bit
`0x80` and the current one does not. -/
def pickup_signal_of (prev curr : Nat) : Bool :=
  (prev &&& 0x80 != 0) && (curr &&& 0x80 == 0)

/-- The drop edge from `JobMonitor.run`: previous clamp status lacked
bit `0x40` and the current one has it. -/
def drop_signal_of (prev curr : Nat) : Bool :=
  (prev &&& 0x40 == 0) && (curr &&& 0x40 != 0)

/-- A clamp signal of the edge detector. -/
inductive Signal where
  | pickup
  | drop
  deriving DecidableEq, Repr

/-- The signals one location sample emits, in processing order: the
`run` loop handles its `pickup_signal` block before its `drop_signal`
block. -/
def sample_signals (prev curr : Nat) : List Signal :=
  (if pickup_signal_of prev curr then [Signal.pickup] else []) ++
    (if drop_signal_of prev curr then [Signal.drop] else [])

/-- A row of the `loc_data` query made by
`database.__get_load_data_inside_circle` (coordinates and timestamp). -/
structure PickupLocSample where
  ts : Q
  x : Q
  y : Q
  deriving DecidableEq, Repr

/-- The RFID window computation of
`database.Database.__get_load_data_inside_circle`: `loc_data` is the
result of its query (samples of the last 60 seconds before the pickup,
sorted by timestamp descending), and the function returns the
`(load_query_start_time, load_query_end_time)` pair it passes on to
`__get_load_data`. -/
def get_load_window (cfg : Config) (dist : Coords → Coords → Q)
    (event_coords : Coords) (event_time : Q) (loc_data : List PickupLocSample) :
    Q × Q :=
  let max_time := event_time
  let min_time := max_time - 60
  let load_query_end_time := max_time + cfg.pickup_post_seconds
  let load_query_start_time :=
    match loc_data.find? (fun l =>
        decide (cfg.pickup_check_distance_window ≤ dist event_coords ⟨l.x, l.y⟩)) with
    | some l => l.ts
    | none => min_time
  (load_query_start_time, load_query_end_time)

/-- `JobMonitor.get_task_avg_speed`. -/
def get_task_avg_speed (speed_accumulator : List Q) : Q :=
  if speed_accumulator.isEmpty then 0
  else round2 (speed_accumulator.sum / (speed_accumulator.length : Q))

/-- `JobMonitor.should_check_item_at_drop`, with the
`loc_has_active_dl_alerts` database read taken from the oracle. -/
def should_check_item_at_drop (st : State) (o : Oracle) (item : Item) : Bool :=
  if st.latest_pickup_item_ids.contains item.id then true
  else if !st.correct_origins.contains item.item_origin &&
          o.loc_has_active_dl_alerts item.item_origin then false
  else st.pickup_history.contains item.item_origin

/-- `JobMonitor.finalize_task`: binds the item, stamps start/finish
times and the average speed, and marks the task complete. -/
def finalize_task (st : State) (task : Task) (item : Item) : Task :=
  { task with
    item_id := some item.id,
    start_time := some (match st.task_completion_times.getLast? with
      | none => st.job_start_time
      | some x => x),
    finish_time := some st.curr_loc_time,
    avg_speed := some (get_task_avg_speed st.speed_accumulator),
    complete := true }

/-- The accumulator of `check_drop`'s classification loop: the task list
(mutated in place in the source) and the three label lists, plus the
database writes issued so far. -/
structure ClassAcc where
  tasks : List Task
  correct : List Item
  returned : List Item
  wrong : List Item
  effects : List Effect
  deriving DecidableEq, Repr

/-- The task predicate of `check_drop`'s per-task scan.  The source
tests the full match (`dest == drop_location`) first and then, in its
`else`, the NOE variant (`drop_location == __NOE_loc` with `dest`
unconstrained); both branches perform the same updates, so the scan
finds the first open task satisfying their disjunction. -/
def drop_match (item : Item) (drop_location : Nat) (t : Task) : Bool :=
  item.model == t.model && item.serial_lock == 0 && item.item_origin == t.origin &&
    (drop_location == t.dest || drop_location == NOE_loc)

/-- The alert scan of `check_alleged_wrong_item` (lines 327-330): each
iteration first reads `alert['correct_loc_id']` — a key the
`get_model_alerts` rows do not carry — and only then compares it to the
drop location, so on a non-empty list the first iteration raises. -/
def find_alert_with_correct_loc (drop_location : Nat) :
    List AlertRow → Run (Option AlertRow)
  | [] => Run.ok none
  | a :: rest =>
    match a.getKey "correct_loc_id" with
    | Except.error e => Run.raised e none
    | Except.ok v =>
      if v == drop_location then Run.ok (some a)
      else find_alert_with_correct_loc drop_location rest

/-- `JobMonitor.check_alleged_wrong_item`.  `alerts` is the result of
the `get_model_alerts` database read; its rows carry only the `id` key
(`database.py` line 413), so the reads `alert['correct_loc_id']` (line
328) and `alert_to_cancel['item_id']` (line 338) raise `KeyError`
whenever they are reached: the swap and returned branches raise before
mutating any task, and the raise propagates out of the drop
validation. -/
def check_alleged_wrong_item (acc : ClassAcc) (item : Item) (drop_location : Nat)
    (alerts : List AlertRow) : Run ClassAcc :=
  if item.serial_lock != 0 then Run.ok { acc with wrong := acc.wrong ++ [item] } else
  let model_tasks := acc.tasks.filter (fun t => t.model == item.model)
  match model_tasks.find? (fun t => t.complete && t.item_id == some item.id) with
  | none => Run.ok { acc with wrong := acc.wrong ++ [item] }
  | some task_completed_by_item =>
    if alerts.isEmpty then Run.ok { acc with wrong := acc.wrong ++ [item] } else
    if task_completed_by_item.origin != drop_location then
      let correction_task := model_tasks.find? (fun t => t.dest == drop_location && !t.complete)
      match find_alert_with_correct_loc drop_location alerts with
      | Run.raised e _ => Run.raised e acc
      | Run.ok alert_to_cancel =>
        match correction_task, alert_to_cancel with
        | some corr_task, some a_cancel =>
            match a_cancel.getKey "item_id" with
            | Except.error e => Run.raised e acc
            | Except.ok aid =>
              let prior := { task_completed_by_item with item_id := some aid }
              let corr := { corr_task with item_id := some item.id, complete := true }
              Run.ok { acc with
                tasks := (acc.tasks.replace task_completed_by_item prior).replace corr_task corr,
                correct := acc.correct ++ [item],
                effects := acc.effects ++
                  [Effect.save_task prior, Effect.save_task corr,
                   Effect.cancel_alert a_cancel.id] }
        | _, _ => Run.ok { acc with wrong := acc.wrong ++ [item] }
    else
      match alerts with
      | [] => Run.ok { acc with wrong := acc.wrong ++ [item] }
      | alert_to_cancel :: _ =>
        match alert_to_cancel.getKey "item_id" with
        | Except.error e => Run.raised e acc
        | Except.ok aid =>
          let prior := { task_completed_by_item with item_id := some aid }
          Run.ok { acc with
            tasks := acc.tasks.replace task_completed_by_item prior,
            returned := acc.returned ++ [item],
            effects := acc.effects ++
              [Effect.save_task prior, Effect.cancel_alert alert_to_cancel.id] }

/-- One iteration of `check_drop`'s classification loop (`for item in
sensed_items`), including the drop filter and the for-else fallback
into `check_alleged_wrong_item` / the returned label. -/
def classify_item (st : State) (o : Oracle) (drop_location : Nat)
    (acc : ClassAcc) (item : Item) : Run ClassAcc :=
  if !should_check_item_at_drop st o item then Run.ok acc else
  match (acc.tasks.filter (fun t => !t.complete)).find? (drop_match item drop_location) with
  | some task =>
      let t := finalize_task st task item
      Run.ok { acc with
        tasks := acc.tasks.replace task t,
        correct := acc.correct ++ [item],
        effects := acc.effects ++
          [Effect.save_item_loc item.id drop_location, Effect.save_task t] }
  | none =>
      if item.item_origin != drop_location then
        check_alleged_wrong_item acc item drop_location (o.get_model_alerts item)
      else Run.ok { acc with returned := acc.returned ++ [item] }

/-- The classification loop of `JobMonitor.check_drop`: a raised
exception stops the loop (the remaining items are never processed) and
propagates together with the mutations made so far. -/
def classify_fold (st : State) (o : Oracle) (drop_location : Nat) :
    List Item → ClassAcc → Run ClassAcc
  | [], acc => Run.ok acc
  | item :: rest, acc =>
    match classify_item st o drop_location acc item with
    | Run.raised e acc2 => Run.raised e acc2
    | Run.ok acc2 => classify_fold st o drop_location rest acc2

/-- The whole classification loop of `JobMonitor.check_drop`, started
from the monitor's current task list and empty label lists. -/
def check_drop_classify (st : State) (o : Oracle) (drop_location : Nat)
    (sensed_items : List Item) : Run ClassAcc :=
  classify_fold st o drop_location sensed_items
    { tasks := st.tasks, correct := [], returned := [], wrong := [], effects := [] }

/-- The wrong-item predicate of `check_drop`'s correct-location scan
(lines 443-451). -/
def wrong_task_match (item : Item) (t : Task) : Bool :=
  item.model == t.model && item.serial_lock == 0 && item.item_origin == t.origin

/-- The correct-location assignment loop of `JobMonitor.check_drop`:
each wrong item takes the destination of the first incomplete task that
matches and is not yet in `checked_tasks`; otherwise its own origin. -/
def assign_wrong_locs (incomplete_tasks : List Task) (checked_tasks : List Nat) :
    List Item → List Item
  | [] => []
  | w :: ws =>
    let tasks_to_check := incomplete_tasks.filter (fun t => !checked_tasks.contains t.task_id)
    match tasks_to_check.find? (wrong_task_match w) with
    | some task =>
        { w with correct_loc_id := some task.dest } ::
          assign_wrong_locs incomplete_tasks (checked_tasks ++ [task.task_id]) ws
    | none =>
        { w with correct_loc_id := some w.item_origin } ::
          assign_wrong_locs incomplete_tasks checked_tasks ws

/-- Follows the spec's words, for comparison with `assign_wrong_locs`:
"find the first remaining open task with matching model and origin
(serial_lock zero) and set the item's correct_loc_id = task.dest; a task
may be reserved by only one wrong item per drop.  If no such task
exists, set correct_loc_id = item.origin."  A reserved task is removed
from the remaining list. -/
def assign_wrong_locs_spec : List Task → List Item → List Item
  | _, [] => []
  | remaining, w :: ws =>
    match remaining.find? (wrong_task_match w) with
    | some task =>
        { w with correct_loc_id := some task.dest } ::
          assign_wrong_locs_spec (remaining.erase task) ws
    | none =>
        { w with correct_loc_id := some w.item_origin } :: assign_wrong_locs_spec remaining ws

/-- `JobMonitor.finalize_trip`. -/
def finalize_trip (st : State) (location : Nat) (event_time : Q) (carry_finished : Bool) : State :=
  match st.carries.getLast? with
  | none => st
  | some c =>
    match c.trips.getLast? with
    | none => st
    | some tr =>
      if tr.origin == location && !carry_finished then st
      else
        let c1 := { c with trips := c.trips.dropLast ++ [tr.finished location event_time] }
        let c2 := if has_active_tasks st.tasks && !carry_finished
                  then c1.append_trip event_time location else c1
        { st with carries := st.carries.dropLast ++ [c2] }

/-- `JobMonitor.finalize_carry`. -/
def finalize_carry (st : State) (location : Nat) (event_time : Q) (correct_item_count : Nat) : State :=
  let carries :=
    match st.carries.getLast? with
    | none => st.carries
    | some c => st.carries.dropLast ++ [c.finished location correct_item_count event_time]
  let carries :=
    if has_active_tasks st.tasks
    then carries ++ [Carry.new (carries.length + 1) event_time location]
    else carries
  { st with carries := carries }

/-- `JobMonitor.check_remaining_tasks`: a `remaining_tasks` alert if
open tasks still target the drop location, otherwise the cancellation of
any such alert. -/
def check_remaining_tasks (st : State) (drop_location : Nat) : List Effect :=
  if (st.tasks.filter (fun t => !t.complete && t.dest == drop_location)).isEmpty
  then [Effect.cancel_remaining_tasks_alert drop_location]
  else [Effect.create_alert drop_location "remaining_tasks" none st.curr_loc_time]

/-- `JobMonitor.check_job`: when tasks exist, none is open and the job
has no active alerts, persist carries and job completion and clear the
task/origin/destination lists. -/
def check_job (st : State) (o : Oracle) : State × List Effect :=
  if st.tasks.isEmpty || has_active_tasks st.tasks || o.has_active_alerts then (st, [])
  else ({ st with tasks := [], correct_origins := [], correct_dests := [] },
        [Effect.save_carries st.carries, Effect.save_job])

/-- The part of `JobMonitor.check_drop` after the classification loop
(lines 441-475): wrong-item location assignment, the
post-classification side effects, the `check_job` call and the clearing
of `latest_pickup_item_ids`, with all database writes in source order.
It runs only when the classification loop raised no exception. -/
def check_drop_finish (st : State) (o : Oracle) (drop_location : Nat) (acc : ClassAcc) :
    State × List Effect :=
  let incomplete_tasks := acc.tasks.filter (fun t => !t.complete)
  let wrong_items := assign_wrong_locs incomplete_tasks [] acc.wrong
  let st1 := { st with tasks := acc.tasks }
  let st2 := if !acc.correct.isEmpty && st1.correct_dests.contains drop_location
             then { st1 with
                    speed_accumulator := [],
                    task_completion_times := st1.task_completion_times ++ [st1.curr_loc_time] }
             else st1
  let e_returned := if !acc.returned.isEmpty then [Effect.cancel_item_alerts acc.returned] else []
  let e_wrong :=
    if !wrong_items.isEmpty then
      [Effect.create_alert drop_location
        (if st2.correct_dests.contains drop_location then "drop_items" else "drop_location")
        (some wrong_items) st2.curr_loc_time]
    else []
  let st3 := if (!acc.correct.isEmpty || !wrong_items.isEmpty || !acc.returned.isEmpty) &&
                st2.correct_dests.contains drop_location
             then finalize_trip st2 drop_location st2.curr_loc_time (!acc.correct.isEmpty)
             else st2
  let st4 := if !acc.correct.isEmpty
             then finalize_carry st3 drop_location st3.curr_loc_time acc.correct.length
             else st3
  let e_correct := if !acc.correct.isEmpty
                   then [Effect.cancel_item_alerts acc.correct] ++ check_remaining_tasks st4 drop_location
                   else []
  ({ (check_job st4 o).1 with latest_pickup_item_ids := [] },
   acc.effects ++ e_returned ++ e_wrong ++ e_correct ++ (check_job st4 o).2)

/-- `JobMonitor.check_drop`: the classification loop followed by
`check_drop_finish`.  A `KeyError` raised inside the classification
loop propagates out of `check_drop`: the assignment loop, the alerts,
`check_job` and the clearing of `latest_pickup_item_ids` are then never
reached, while the task mutations and database writes made before the
raise persist. -/
def check_drop (st : State) (o : Oracle) (drop_location : Nat) (sensed_items : List Item) :
    Run (State × List Effect) :=
  match check_drop_classify st o drop_location sensed_items with
  | Run.raised e acc => Run.raised e ({ st with tasks := acc.tasks }, acc.effects)
  | Run.ok acc => Run.ok (check_drop_finish st o drop_location acc)

/-- A row of the `get_loc_data` query consumed by the `run` loop. -/
structure LocSample where
  geo_feature_id : Nat
  type : String
  ts : Q
  x : Q
  y : Q
  speed : Q
  clamp_status : Nat
  deriving DecidableEq, Repr

/-- `JobMonitor.set_loc_data`. -/
def set_loc_data (st : State) (loc : LocSample) : State :=
  { st with
    prev_loc_time := some st.curr_loc_time,
    curr_loc_type := loc.type,
    curr_loc_id := loc.geo_feature_id,
    curr_loc_time := loc.ts,
    curr_loc_coords := ⟨loc.x, loc.y⟩,
    speed_accumulator := st.speed_accumulator ++ [loc.speed] }

/-- The `run` loop's `if not self.carries` step: the first carry is
opened at the current location. -/
def open_first_carry (st : State) : State :=
  if st.carries.isEmpty
  then { st with carries := st.carries ++ [Carry.new 1 st.curr_loc_time st.curr_loc_id] }
  else st

/-- `JobMonitor.update_carry_times`; indexing `carries[-1]` on an empty
list raises in Python, embedded as an error. -/
def update_carry_times (st : State) : Except String State :=
  match st.prev_loc_time with
  | none => Except.ok st
  | some prev =>
    if st.curr_loc_type == "stow" then
      match st.carries.getLast? with
      | none => Except.error "IndexError: carries is empty"
      | some c =>
        Except.ok { st with carries := st.carries.dropLast ++ [c.add_stow_time prev st.curr_loc_time] }
    else if st.curr_loc_type == "dock" || st.curr_loc_type == "dockOS" then
      match st.carries.getLast? with
      | none => Except.error "IndexError: carries is empty"
      | some c =>
        Except.ok { st with carries := st.carries.dropLast ++ [c.add_dock_time prev st.curr_loc_time] }
    else Except.ok st

/-- The `run` loop's per-sample telemetry step:
`carries[-1].trips[-1].append_speed(loc.speed)` and
`append_coords(curr_loc_coords)`. -/
def append_trip_telemetry (st : State) (o : Oracle) (speed : Q) : Except String State :=
  match st.carries.getLast? with
  | none => Except.error "IndexError: carries is empty"
  | some c =>
    match c.trips.getLast? with
    | none => Except.error "IndexError: trips is empty"
    | some tr =>
      let tr1 := Trip.append_coords o.dist (tr.append_speed speed) st.curr_loc_coords
      Except.ok
        { st with carries := st.carries.dropLast ++ [{ c with trips := c.trips.dropLast ++ [tr1] }] }

/-- `JobMonitor.check_pickup`: appends the detected pickup item ids when
the distance gate has fired, and disarms `pickup_check`. -/
def check_pickup (st : State) (o : Oracle) : State :=
  let pickup_data :=
    match st.curr_pickup_coords, st.curr_pickup_time with
    | some coords, some ptime =>
      if st.pickup_check && event_distance_check o st st.config.pickup_check_distance_trigger coords
      then o.get_pickup_data coords ptime
      else []
    | _, _ => []
  { st with pickup_check := false,
            latest_pickup_item_ids := st.latest_pickup_item_ids ++ pickup_data }

/-- The `run` loop's `if pickup_signal` block (lines 107-121). -/
def pickup_signal_step (st : State) : State × List Effect :=
  if clamp_check_enabled st then
    let st1 := { st with pickup_history := st.pickup_history ++ [st.curr_loc_id] }
    let clamp_warning_name :=
      if st1.correct_origins.contains st1.curr_loc_id
      then "clamps_closed_event" else "clamps_closed_warning"
    let e1 := if has_active_tasks st1.tasks && !st1.correct_dests.contains st1.curr_loc_id
              then [Effect.create_alert st1.curr_loc_id clamp_warning_name none st1.curr_loc_time]
              else []
    let st2 := { st1 with pickup_check := true,
                          curr_pickup_coords := some st1.curr_loc_coords,
                          curr_pickup_time := some st1.curr_loc_time }
    if st2.correct_origins.contains st2.curr_loc_id then
      let st3 := { st2 with active_pickup_event := true }
      (finalize_trip st3 st3.curr_loc_id st3.curr_loc_time false,
       e1 ++ [Effect.cancel_alerts_by_type "clamps_closed_warning"])
    else (st2, e1)
  else (st, [])

/-- The guard of the `run` loop's NOE append (line 134):
`self.db_connection.has_cannot_place_alerts() or
self.db_connection.has_Damaged_Item_alerts()`.  Each call is a Python
attribute access on the `Database` handler followed by the (spec-
modelled) predicate value; `or` short-circuits. -/
def noe_alert_guard (o : Oracle) : Except String Bool :=
  match dbAttrCall "has_cannot_place_alerts" with
  | Except.error e => Except.error e
  | Except.ok () =>
    if o.has_cannot_place_alerts then Except.ok true
    else
      match dbAttrCall "has_Damaged_Item_alerts" with
      | Except.error e => Except.error e
      | Except.ok () => Except.ok o.has_Damaged_Item_alerts

/-- The `run` loop's `if drop_signal` block (lines 123-136): flush the
pending pickup, arm the drop gate, evaluate the NOE guard and cancel
clamp warnings at correct destinations. -/
def drop_signal_step (st : State) (o : Oracle) : Except String (State × List Effect) :=
  if clamp_check_enabled st && !st.drop_check then
    let st1 := check_pickup st o
    let st2 := { st1 with drop_history := st1.drop_history ++ [st1.curr_loc_id],
                          drop_check := true,
                          curr_drop_coords := some st1.curr_loc_coords,
                          curr_drop_time := some st1.curr_loc_time }
    match noe_alert_guard o with
    | Except.error e => Except.error e
    | Except.ok noe =>
      let st3 := if noe then { st2 with correct_dests := st2.correct_dests ++ [NOE_loc] } else st2
      let e1 := if st3.correct_dests.contains st3.curr_loc_id
                then [Effect.cancel_alerts_by_type "clamps_closed_warning"] else []
      Except.ok (st3, e1)
  else Except.ok (st, [])

/-- The `run` loop's drop distance gate (lines 138-142): when armed and
outside `drop_check_distance`, disarm, fetch the drop load and run
`check_drop` at the last drop-history location. -/
def drop_gate_step (st : State) (o : Oracle) : Except String (State × List Effect) :=
  match st.curr_drop_coords, st.curr_drop_time with
  | some coords, some dtime =>
    if st.drop_check && event_distance_check o st st.config.drop_check_distance coords then
      let st1 := { st with drop_check := false }
      let sensed_items := o.get_drop_data dtime st1.curr_loc_time
      match st1.drop_history.getLast? with
      | none => Except.error "IndexError: drop_history is empty"
      | some d =>
        match check_drop st1 o d sensed_items with
        | Run.raised e _ => Except.error e
        | Run.ok p => Except.ok p
    else Except.ok (st, [])
  | _, _ => Except.ok (st, [])

/-- The `run` loop's pickup distance gate (lines 144-146): a correct-
origin pickup event is cleared once the truck drives away, cancelling
`clamps_closed_event` alerts. -/
def pickup_gate_step (st : State) (o : Oracle) : State × List Effect :=
  match st.curr_pickup_coords with
  | some coords =>
    if st.active_pickup_event &&
       event_distance_check o st st.config.pickup_check_distance_trigger coords then
      ({ st with active_pickup_event := false },
       [Effect.cancel_alerts_by_type "clamps_closed_event"])
    else (st, [])
  | none => (st, [])

/-- The state-mutating operations a running `JobMonitor` can execute
after construction: the per-sample steps of the `run` loop and the
monitor's methods.  `set_tasks` is absent because the source invokes it
only from `__init__`. -/
inductive MonitorOp where
  | set_loc_data (loc : LocSample)
  | open_first_carry
  | update_carry_times
  | append_trip_telemetry (speed : Q)
  | clamp_update (current_clamp_status : Nat)
  | pickup_signal_step
  | drop_signal_step
  | drop_gate_step
  | pickup_gate_step
  | check_pickup
  | check_drop (drop_location : Nat) (sensed_items : List Item)
  | check_job
  | finalize_trip (location : Nat) (event_time : Q) (carry_finished : Bool)
  | finalize_carry (location : Nat) (event_time : Q) (correct_item_count : Nat)
  | check_remaining_tasks (drop_location : Nat)

/-- Executes one monitor operation; a raised Python exception
(`AttributeError`, `IndexError`, `KeyError`) aborts the monitor. -/
def MonitorOp.apply (o : Oracle) (st : State) : MonitorOp → Except String (State × List Effect)
  | MonitorOp.set_loc_data loc => Except.ok (JobMon.set_loc_data st loc, [])
  | MonitorOp.open_first_carry => Except.ok (JobMon.open_first_carry st, [])
  | MonitorOp.update_carry_times => (JobMon.update_carry_times st).map (fun s => (s, []))
  | MonitorOp.append_trip_telemetry speed =>
      (JobMon.append_trip_telemetry st o speed).map (fun s => (s, []))
  | MonitorOp.clamp_update c => Except.ok ({ st with previous_clamp_status := c }, [])
  | MonitorOp.pickup_signal_step => Except.ok (JobMon.pickup_signal_step st)
  | MonitorOp.drop_signal_step => JobMon.drop_signal_step st o
  | MonitorOp.drop_gate_step => JobMon.drop_gate_step st o
  | MonitorOp.pickup_gate_step => Except.ok (JobMon.pickup_gate_step st o)
  | MonitorOp.check_pickup => Except.ok (JobMon.check_pickup st o, [])
  | MonitorOp.check_drop d sensed =>
      match JobMon.check_drop st o d sensed with
      | Run.raised e _ => Except.error e
      | Run.ok p => Except.ok p
  | MonitorOp.check_job => Except.ok (JobMon.check_job st o)
  | MonitorOp.finalize_trip loc t cf => Except.ok (JobMon.finalize_trip st loc t cf, [])
  | MonitorOp.finalize_carry loc t n => Except.ok (JobMon.finalize_carry st loc t n, [])
  | MonitorOp.check_remaining_tasks d => Except.ok (st, JobMon.check_remaining_tasks st d)

/-- Executes a sequence of monitor operations, stopping at the first
raised exception. -/
def runOps (o : Oracle) : List MonitorOp → State → Except String (State × List Effect)
  | [], st => Except.ok (st, [])
  | op :: ops, st =>
    match op.apply o st with
    | Except.error e => Except.error e
    | Except.ok (st1, effs1) =>
      match runOps o ops st1 with
      | Except.error e => Except.error e
      | Except.ok (st2, effs2) => Except.ok (st2, effs1 ++ effs2)

/-- Recognizes the wrong-item alert writes of `check_drop` (alert types
`drop_items` and `drop_location`). -/
def is_drop_alert : Effect → Bool
  | Effect.create_alert _ ty _ _ => ty == "drop_items" || ty == "drop_location"
  | _ => false

/-- Concrete tasks (a job moving two model-A units from location 5 to
locations 6 and 79) used by the closed witnesses and counterexamples. -/
def tasks_w : List Task := [Task.new 1 "A" 5 6, Task.new 2 "A" 5 79]

/-- A concrete open trip with two recorded speeds. -/
def trip_w : Trip := { Trip.new 1 0 5 with speeds := [1, 2] }

/-- A concrete open carry holding `trip_w`. -/
def carry_w : Carry := { Carry.new 1 0 5 with trips := [trip_w] }

/-- A concrete configuration. -/
def config_w : Config :=
  { pickup_check_distance_trigger := 10, pickup_check_distance_window := 5,
    pickup_post_seconds := 3, drop_check_distance := 10, drop_pre_seconds := 3 }

/-- A concrete monitor state for the job of `tasks_w`, currently at the
correct origin 5. -/
def state_w : State :=
  { config := config_w,
    curr_loc_id := 5, curr_loc_type := "stow", curr_loc_time := 100,
    curr_loc_coords := ⟨0, 0⟩, prev_loc_time := none, pickup_check := false,
    correct_origins := [5], correct_dests := [6, 79], pickup_history := [5],
    drop_history := [], latest_pickup_item_ids := [], tasks := tasks_w,
    task_completion_times := [], speed_accumulator := [], carries := [carry_w],
    job_start_time := 0, previous_clamp_status := 0, drop_check := false,
    curr_pickup_coords := none, curr_pickup_time := none, curr_drop_coords := none,
    curr_drop_time := none, active_pickup_event := false }

/-- A concrete oracle with a quiet database and a degenerate metric. -/
def oracle_w : Oracle :=
  { dist := fun _ _ => 0,
    loc_has_active_dl_alerts := fun _ => false,
    get_model_alerts := fun _ => [],
    has_active_alerts := false,
    get_pickup_data := fun _ _ => [],
    get_drop_data := fun _ _ => [],
    has_cannot_place_alerts := false,
    has_Damaged_Item_alerts := false }

/-- A concrete fungible model-A item picked up at location 5. -/
def item_w : Item := { id := 7, model := "A", item_origin := 5, serial_lock := 0, correct_loc_id := none }

/-- A concrete serial-locked model-A item. -/
def item_locked_w : Item := { id := 9, model := "A", item_origin := 5, serial_lock := 1, correct_loc_id := none }

/-- A concrete completed task bound to item 7. -/
def task_done_w : Task := { Task.new 1 "A" 5 6 with complete := true, item_id := some 7 }

/-- A concrete monitor state whose only task is complete. -/
def state_done_w : State := { state_w with tasks := [task_done_w] }

/-- A classification accumulator over `tasks_w` with empty label lists. -/
def acc_w : ClassAcc := { tasks := tasks_w, correct := [], returned := [], wrong := [], effects := [] }

/-- A classification accumulator whose only task is the completed
`task_done_w`, bound to item 7. -/
def acc_done_w : ClassAcc :=
  { tasks := [task_done_w], correct := [], returned := [], wrong := [], effects := [] }

/-- A concrete `get_model_alerts` row: as the query projects only
`a.id`, the row carries nothing but its id. -/
def alert_row_w : AlertRow := { id := 1 }

/-- `oracle_w` with one active matching alert row for every model. -/
def oracle_alert_w : Oracle := { oracle_w with get_model_alerts := fun _ => [alert_row_w] }

/-- `state_w` with the job's only task completed (and bound to item 7)
and two accumulated pickup item ids. -/
def state_swap_w : State :=
  { state_w with tasks := [task_done_w], latest_pickup_item_ids := [7, 9] }

theorem land_two_pow_ne_zero_iff (p i : Nat) : p &&& 2 ^ i ≠ 0 ↔ p.testBit i = true := by
  have h2 : (2 : Nat) ^ i ≠ 0 := by positivity
  rw [Nat.and_two_pow]
  cases h : p.testBit i <;> simp [h2]

theorem land_two_pow_eq_zero_iff (p i : Nat) : p &&& 2 ^ i = 0 ↔ p.testBit i = false := by
  have h2 : (2 : Nat) ^ i ≠ 0 := by positivity
  rw [Nat.and_two_pow]
  cases h : p.testBit i <;> simp [h2]

/-- C4: the clamp edge detector is a pure function of
`(previous_clamp_status, current_clamp_status)`: a pickup signal fires
iff bit `0x80` was set and is now clear, a drop signal fires iff bit
`0x40` was clear and is now set, both can fire on one sample (for
example `(0x80, 0x40)`), and in that case the sample's signals are
processed pickup first. -/
theorem c4_clamp_edge_detector (prev curr : Nat) :
    (pickup_signal_of prev curr = true ↔
      (Nat.testBit prev 7 = true ∧ Nat.testBit curr 7 = false)) ∧
    (drop_signal_of prev curr = true ↔
      (Nat.testBit prev 6 = false ∧ Nat.testBit curr 6 = true)) ∧
    (pickup_signal_of prev curr = true → drop_signal_of prev curr = true →
      sample_signals prev curr = [Signal.pickup, Signal.drop]) ∧
    (pickup_signal_of 0x80 0x40 = true ∧ drop_signal_of 0x80 0x40 = true) := by
  have h128 : (0x80 : Nat) = 2 ^ 7 := by norm_num
  have h64 : (0x40 : Nat) = 2 ^ 6 := by norm_num
  refine ⟨?_, ?_, ?_, by decide⟩
  · rw [pickup_signal_of, h128, Bool.and_eq_true, bne_iff_ne, beq_iff_eq,
      ← land_two_pow_ne_zero_iff prev 7, ← land_two_pow_eq_zero_iff curr 7]
  · rw [drop_signal_of, h64, Bool.and_eq_true, bne_iff_ne, beq_iff_eq,
      ← land_two_pow_eq_zero_iff prev 6, ← land_two_pow_ne_zero_iff curr 6]
  · intro hp hd
    simp [sample_signals, hp, hd]

/-- Witness for C4 at the concrete status pair `(0x80, 0x40)`: both
edges fire and pickup is listed before drop. -/
theorem c4_clamp_edge_detector_witness :
    sample_signals 0x80 0x40 = [Signal.pickup, Signal.drop] :=
  (c4_clamp_edge_detector 0x80 0x40).2.2.1 (by decide) (by decide)

/-- C9: finalizing a carry from its open state makes `total_distance`
the sum of its trips' distances and the two averages the corresponding
means, and finalizing a trip makes `travel_time` the difference between
finish and start timestamps and `avg_speed` the 2-decimal-rounded mean
of the recorded speeds when any exist. -/
theorem c9_carry_trip_analytics :
    (∀ (c : Carry) (location : Nat) (item_count : Nat) (time : Q),
      c.total_distance = 0 → c.trips ≠ [] →
      ((c.finished location item_count time).total_distance
          = (c.trips.map (fun tr => tr.distance)).sum ∧
       (c.finished location item_count time).avg_trip_distance
          = (c.finished location item_count time).total_distance / (c.trips.length : Q) ∧
       (c.finished location item_count time).avg_trip_time
          = (c.trips.map (fun tr => tr.travel_time)).sum / (c.trips.length : Q))) ∧
    (∀ (tr : Trip) (location : Nat) (time : Q),
      (tr.finished location time).finish_time = some time ∧
      (tr.finished location time).travel_time = time - tr.start_time ∧
      (tr.speeds ≠ [] →
        (tr.finished location time).avg_speed
          = round2 (tr.speeds.sum / (tr.speeds.length : Q)))) := by
  constructor
  · intro c location item_count time h0 hne
    have hpos : 0 < c.trips.length := List.length_pos.mpr hne
    simp [Carry.finished, h0, hpos]
  · intro tr location time
    refine ⟨rfl, rfl, fun hne => ?_⟩
    simp [Trip.finished, List.isEmpty_iff, hne]

/-- Witness for C9 at the concrete fixtures `carry_w` and `trip_w`. -/
theorem c9_carry_trip_analytics_witness :
    ((carry_w.finished 6 1 10).total_distance
        = (carry_w.trips.map (fun tr => tr.distance)).sum) ∧
    ((trip_w.finished 6 10).avg_speed
        = round2 (trip_w.speeds.sum / (trip_w.speeds.length : Q))) :=
  ⟨(c9_carry_trip_analytics.1 carry_w 6 1 10 (by decide) (by decide)).1,
   (c9_carry_trip_analytics.2 trip_w 6 10).2.2 (by decide)⟩

/-- C8: `finalize_trip` refuses to close a trip onto its own origin
unless the carry is closing too: with `carry_finished = false` and the
open trip's origin as the location the state is unchanged, and in any
closing with `carry_finished = false` the closed trip's destination
differs from its origin. -/
theorem c8_trip_close_location (st : State) (location : Nat) (event_time : Q)
    (c : Carry) (tr : Trip)
    (hc : st.carries.getLast? = some c) (htr : c.trips.getLast? = some tr) :
    (tr.origin = location → finalize_trip st location event_time false = st) ∧
    (tr.origin ≠ location →
      (tr.finished location event_time).dest = some location ∧
      (tr.finished location event_time).dest ≠ some ((tr.finished location event_time).origin) ∧
      (finalize_trip st location event_time false).carries =
        st.carries.dropLast ++
          [if has_active_tasks st.tasks then
            ({ c with trips := c.trips.dropLast ++ [tr.finished location event_time] }).append_trip
              event_time location
           else { c with trips := c.trips.dropLast ++ [tr.finished location event_time] }]) := by
  constructor
  · intro heq
    simp [finalize_trip, hc, htr, heq]
  · intro hne
    refine ⟨rfl, ?_, ?_⟩
    · simp [Trip.finished]
      exact fun h => (hne h.symm).elim
    · simp only [finalize_trip, hc, htr]
      rw [if_neg (by simp [hne])]
      split
      · next h => rw [if_pos (show has_active_tasks st.tasks = true by simpa using h)]
      · next h => rw [if_neg (show ¬ has_active_tasks st.tasks = true by simpa using h)]

/-- Witness for C8: at `state_w` (open trip origin 5) a
`finalize_trip` call at location 5 with the carry not finishing leaves
the state unchanged. -/
theorem c8_trip_close_location_witness :
    finalize_trip state_w 5 20 false = state_w :=
  (c8_trip_close_location state_w 5 20 carry_w trip_w (by decide) (by decide)).1 (by decide)

/-- In a list sorted descending by `f`, the sample `find?` returns is a
maximizer of `f` among all elements satisfying the predicate. -/
theorem find?_max_of_sorted {α : Type} (p : α → Bool) (f : α → Q) :
    ∀ (l : List α), l.Pairwise (fun a b => f b ≤ f a) →
      ∀ x, l.find? p = some x → ∀ y ∈ l, p y = true → f y ≤ f x := by
  intro l
  induction l with
  | nil => intro _ x hx; simp at hx
  | cons a t ih =>
    intro hsorted x hx y hy hpy
    rcases List.pairwise_cons.mp hsorted with ⟨ha, ht⟩
    by_cases hpa : p a = true
    · rw [List.find?_cons_of_pos _ hpa] at hx
      obtain rfl : a = x := by injection hx
      rcases List.mem_cons.mp hy with rfl | hyt
      · exact le_refl _
      · exact ha y hyt
    · rw [List.find?_cons_of_neg _ (by simpa using hpa)] at hx
      rcases List.mem_cons.mp hy with rfl | hyt
      · exact absurd hpy hpa
      · exact ih ht x hx y hyt hpy

/-- C7: the pickup RFID window ends at `pickup_time + pickup_post_seconds`
and starts at the timestamp of the latest sample of the last 60 seconds
whose distance from the pickup coordinates is at least
`pickup_check_distance_window` (the descending scan's first hit), or at
`pickup_time - 60` when no sample qualifies; in particular the lower
bound stays within `[pickup_time - 60, pickup_time]`. -/
theorem c7_pickup_load_window (cfg : Config) (dist : Coords → Coords → Q)
    (event_coords : Coords) (event_time : Q) (loc_data : List PickupLocSample)
    (hrange : ∀ l ∈ loc_data, event_time - 60 ≤ l.ts ∧ l.ts ≤ event_time)
    (hsorted : loc_data.Pairwise (fun a b => b.ts ≤ a.ts)) :
    (get_load_window cfg dist event_coords event_time loc_data).2
        = event_time + cfg.pickup_post_seconds ∧
    event_time - 60 ≤ (get_load_window cfg dist event_coords event_time loc_data).1 ∧
    (get_load_window cfg dist event_coords event_time loc_data).1 ≤ event_time ∧
    ((∃ l ∈ loc_data,
        cfg.pickup_check_distance_window ≤ dist event_coords ⟨l.x, l.y⟩ ∧
        (get_load_window cfg dist event_coords event_time loc_data).1 = l.ts ∧
        ∀ l2 ∈ loc_data,
          cfg.pickup_check_distance_window ≤ dist event_coords ⟨l2.x, l2.y⟩ → l2.ts ≤ l.ts) ∨
     ((∀ l ∈ loc_data, ¬ cfg.pickup_check_distance_window ≤ dist event_coords ⟨l.x, l.y⟩) ∧
      (get_load_window cfg dist event_coords event_time loc_data).1 = event_time - 60)) := by
  refine ⟨rfl, ?_⟩
  set p : PickupLocSample → Bool :=
    fun l => decide (cfg.pickup_check_distance_window ≤ dist event_coords ⟨l.x, l.y⟩) with hp
  have hw : (get_load_window cfg dist event_coords event_time loc_data).1 =
      match loc_data.find? p with
      | some l => l.ts
      | none => event_time - 60 := rfl
  rcases hfind : loc_data.find? p with _ | l
  · have hnone := List.find?_eq_none.mp hfind
    rw [hw, hfind]
    refine ⟨le_refl _, show event_time - 60 ≤ event_time by linarith, Or.inr ⟨?_, rfl⟩⟩
    intro l hl
    have := hnone l hl
    simpa [hp] using this
  · have hmem : l ∈ loc_data := List.mem_of_find?_eq_some hfind
    have hpl : p l = true := List.find?_some hfind
    have hr := hrange l hmem
    rw [hw, hfind]
    refine ⟨hr.1, hr.2, Or.inl ⟨l, hmem, by simpa [hp] using hpl, rfl, ?_⟩⟩
    intro l2 hl2 hd2
    exact find?_max_of_sorted p (fun s => s.ts) loc_data hsorted l hfind l2 hl2
      (by simpa [hp] using hd2)

/-- Witness for C7 with an empty sample list: the window is exactly
`[pickup_time - 60, pickup_time + pickup_post_seconds]`. -/
theorem c7_pickup_load_window_witness :
    (get_load_window config_w (fun _ _ => 0) ⟨0, 0⟩ 100 []).2 = 100 + config_w.pickup_post_seconds ∧
    (100 : Q) - 60 ≤ (get_load_window config_w (fun _ _ => 0) ⟨0, 0⟩ 100 []).1 :=
  ⟨(c7_pickup_load_window config_w (fun _ _ => 0) ⟨0, 0⟩ 100 [] (by simp) (by simp)).1,
   (c7_pickup_load_window config_w (fun _ _ => 0) ⟨0, 0⟩ 100 [] (by simp) (by simp)).2.1⟩

/-- The NOE guard of the `run` loop always raises: `database.py` defines
no `has_cannot_place_alerts` method, so the first attribute lookup
fails whatever the oracle would answer. -/
theorem noe_alert_guard_error (o : Oracle) :
    noe_alert_guard o =
      Except.error "AttributeError: Database object has no attribute has_cannot_place_alerts" := rfl

/-- C6 (amended): the NOE guard of the drop-signal branch calls
`has_cannot_place_alerts` / `has_Damaged_Item_alerts`, which are not
defined on the `Database` data-access class, so every drop signal
handled at a non-aisle, non-charging location while no drop validation
is pending fails with an undefined-attribute error. -/
theorem c6_noe_guard_undefined (st : State) (o : Oracle)
    (hclamp : clamp_check_enabled st = true) (hdc : st.drop_check = false) :
    databaseMethods.contains "has_cannot_place_alerts" = false ∧
    databaseMethods.contains "has_Damaged_Item_alerts" = false ∧
    drop_signal_step st o =
      Except.error "AttributeError: Database object has no attribute has_cannot_place_alerts" := by
  refine ⟨by decide, by decide, ?_⟩
  simp [drop_signal_step, hclamp, hdc, noe_alert_guard_error]

/-- Witness for C6's amended theorem at the concrete state `state_w`. -/
theorem c6_noe_guard_undefined_witness :
    drop_signal_step state_w oracle_w =
      Except.error "AttributeError: Database object has no attribute has_cannot_place_alerts" :=
  (c6_noe_guard_undefined state_w oracle_w (by decide) (by decide)).2.2

/-- C6 counterexample: the claim that the evaluation of the NOE guard
only invokes operations defined on `Database` fails concretely — the
guarded drop-signal branch at `state_w` raises `AttributeError` instead
of succeeding. -/
theorem c6_counterexample :
    databaseMethods.contains "has_cannot_place_alerts" = false ∧
    drop_signal_step state_w oracle_w =
      Except.error "AttributeError: Database object has no attribute has_cannot_place_alerts" := by
  refine ⟨by decide, rfl⟩

theorem finalize_trip_co (st : State) (loc : Nat) (t : Q) (cf : Bool) :
    (finalize_trip st loc t cf).correct_origins = st.correct_origins := by
  unfold finalize_trip
  split
  · rfl
  · split
    · rfl
    · split <;> rfl

theorem finalize_trip_cd (st : State) (loc : Nat) (t : Q) (cf : Bool) :
    (finalize_trip st loc t cf).correct_dests = st.correct_dests := by
  unfold finalize_trip
  split
  · rfl
  · split
    · rfl
    · split <;> rfl

theorem finalize_carry_co (st : State) (loc : Nat) (t : Q) (n : Nat) :
    (finalize_carry st loc t n).correct_origins = st.correct_origins := rfl

theorem finalize_carry_cd (st : State) (loc : Nat) (t : Q) (n : Nat) :
    (finalize_carry st loc t n).correct_dests = st.correct_dests := rfl

theorem check_job_co_cd_nil (st : State) (o : Oracle)
    (ho : st.correct_origins = []) (hd : st.correct_dests = []) :
    (check_job st o).1.correct_origins = [] ∧ (check_job st o).1.correct_dests = [] := by
  unfold check_job
  split
  · exact ⟨ho, hd⟩
  · exact ⟨rfl, rfl⟩

theorem check_drop_finish_co_cd (st : State) (o : Oracle) (d : Nat) (acc : ClassAcc)
    (ho : st.correct_origins = []) (hd : st.correct_dests = []) :
    (check_drop_finish st o d acc).1.correct_origins = [] ∧
    (check_drop_finish st o d acc).1.correct_dests = [] := by
  simp only [check_drop_finish]
  constructor
  · refine (check_job_co_cd_nil _ o ?_ ?_).1 <;>
      simp [apply_ite State.correct_origins, apply_ite State.correct_dests,
        finalize_trip_co, finalize_trip_cd, finalize_carry_co, finalize_carry_cd, ho, hd]
  · refine (check_job_co_cd_nil _ o ?_ ?_).2 <;>
      simp [apply_ite State.correct_origins, apply_ite State.correct_dests,
        finalize_trip_co, finalize_trip_cd, finalize_carry_co, finalize_carry_cd, ho, hd]

theorem check_drop_co_cd (st : State) (o : Oracle) (d : Nat) (s : List Item)
    (ho : st.correct_origins = []) (hd : st.correct_dests = [])
    (st2 : State) (effs : List Effect)
    (h : check_drop st o d s = Run.ok (st2, effs)) :
    st2.correct_origins = [] ∧ st2.correct_dests = [] := by
  unfold check_drop at h
  cases hc : check_drop_classify st o d s with
  | raised e acc => rw [hc] at h; cases h
  | ok acc =>
      rw [hc] at h
      dsimp only at h
      injection h with h
      have h1 := congrArg Prod.fst h
      dsimp only at h1
      rw [← h1]
      exact check_drop_finish_co_cd st o d acc ho hd

theorem update_carry_times_fields (st s : State) (h : update_carry_times st = Except.ok s) :
    s.correct_origins = st.correct_origins ∧ s.correct_dests = st.correct_dests := by
  unfold update_carry_times at h
  split at h
  · injection h with h; subst h; exact ⟨rfl, rfl⟩
  · split at h
    · split at h
      · cases h
      · injection h with h; subst h; exact ⟨rfl, rfl⟩
    · split at h
      · split at h
        · cases h
        · injection h with h; subst h; exact ⟨rfl, rfl⟩
      · injection h with h; subst h; exact ⟨rfl, rfl⟩

theorem append_trip_telemetry_fields (st : State) (o : Oracle) (speed : Q) (s : State)
    (h : append_trip_telemetry st o speed = Except.ok s) :
    s.correct_origins = st.correct_origins ∧ s.correct_dests = st.correct_dests := by
  unfold append_trip_telemetry at h
  split at h
  · cases h
  · split at h
    · cases h
    · injection h with h; subst h; exact ⟨rfl, rfl⟩

theorem pickup_signal_step_fields (st : State) :
    (pickup_signal_step st).1.correct_origins = st.correct_origins ∧
    (pickup_signal_step st).1.correct_dests = st.correct_dests := by
  simp only [pickup_signal_step]
  split
  · split
    · exact ⟨finalize_trip_co _ _ _ _, finalize_trip_cd _ _ _ _⟩
    · exact ⟨rfl, rfl⟩
  · exact ⟨rfl, rfl⟩

/-- Preservation of the cleared `correct_origins` / `correct_dests`
lists by every monitor operation that completes without raising. -/
theorem op_preserves_empty (o : Oracle) (op : MonitorOp) (st : State)
    (ho : st.correct_origins = []) (hd : st.correct_dests = [])
    (st2 : State) (effs : List Effect)
    (h : op.apply o st = Except.ok (st2, effs)) :
    st2.correct_origins = [] ∧ st2.correct_dests = [] := by
  cases op with
  | set_loc_data loc =>
      simp only [MonitorOp.apply, Except.ok.injEq, Prod.mk.injEq] at h
      obtain ⟨h1, -⟩ := h; subst h1; exact ⟨ho, hd⟩
  | open_first_carry =>
      simp only [MonitorOp.apply, Except.ok.injEq, Prod.mk.injEq] at h
      obtain ⟨h1, -⟩ := h; subst h1
      unfold open_first_carry
      split <;> exact ⟨ho, hd⟩
  | update_carry_times =>
      cases hu : JobMon.update_carry_times st with
      | error e => simp [MonitorOp.apply, hu, Except.map] at h
      | ok s =>
          simp only [MonitorOp.apply, hu, Except.map, Except.ok.injEq, Prod.mk.injEq] at h
          obtain ⟨h1, -⟩ := h; subst h1
          have := update_carry_times_fields st s hu
          exact ⟨this.1.trans ho, this.2.trans hd⟩
  | append_trip_telemetry speed =>
      cases hu : JobMon.append_trip_telemetry st o speed with
      | error e => simp [MonitorOp.apply, hu, Except.map] at h
      | ok s =>
          simp only [MonitorOp.apply, hu, Except.map, Except.ok.injEq, Prod.mk.injEq] at h
          obtain ⟨h1, -⟩ := h; subst h1
          have := append_trip_telemetry_fields st o speed s hu
          exact ⟨this.1.trans ho, this.2.trans hd⟩
  | clamp_update c =>
      simp only [MonitorOp.apply, Except.ok.injEq, Prod.mk.injEq] at h
      obtain ⟨h1, -⟩ := h; subst h1; exact ⟨ho, hd⟩
  | pickup_signal_step =>
      simp only [MonitorOp.apply, Except.ok.injEq] at h
      have h1 : (JobMon.pickup_signal_step st).1 = st2 := by rw [h]
      have hf := pickup_signal_step_fields st
      rw [h1] at hf
      exact ⟨hf.1.trans ho, hf.2.trans hd⟩
  | drop_signal_step =>
      simp only [MonitorOp.apply, JobMon.drop_signal_step] at h
      split at h
      · rw [noe_alert_guard_error] at h
        simp at h
      · simp only [Except.ok.injEq, Prod.mk.injEq] at h
        obtain ⟨h1, -⟩ := h; subst h1; exact ⟨ho, hd⟩
  | drop_gate_step =>
      simp only [MonitorOp.apply, JobMon.drop_gate_step] at h
      split at h
      · split at h
        · split at h
          · cases h
          · split at h
            · cases h
            · next p heq =>
                obtain ⟨s2, ef⟩ := p
                simp only [Except.ok.injEq, Prod.mk.injEq] at h
                obtain ⟨h1, -⟩ := h; subst h1
                refine check_drop_co_cd _ o _ _ ?_ ?_ s2 ef heq
                · exact ho
                · exact hd
        · simp only [Except.ok.injEq, Prod.mk.injEq] at h
          obtain ⟨h1, -⟩ := h; subst h1; exact ⟨ho, hd⟩
      · simp only [Except.ok.injEq, Prod.mk.injEq] at h
        obtain ⟨h1, -⟩ := h; subst h1; exact ⟨ho, hd⟩
  | pickup_gate_step =>
      simp only [MonitorOp.apply, JobMon.pickup_gate_step] at h
      split at h
      · split at h
        · simp only [Except.ok.injEq, Prod.mk.injEq] at h
          obtain ⟨h1, -⟩ := h; subst h1; exact ⟨ho, hd⟩
        · simp only [Except.ok.injEq, Prod.mk.injEq] at h
          obtain ⟨h1, -⟩ := h; subst h1; exact ⟨ho, hd⟩
      · simp only [Except.ok.injEq, Prod.mk.injEq] at h
        obtain ⟨h1, -⟩ := h; subst h1; exact ⟨ho, hd⟩
  | check_pickup =>
      simp only [MonitorOp.apply, Except.ok.injEq, Prod.mk.injEq] at h
      obtain ⟨h1, -⟩ := h; subst h1; exact ⟨ho, hd⟩
  | check_drop d sensed =>
      simp only [MonitorOp.apply] at h
      cases hcd : JobMon.check_drop st o d sensed with
      | raised e p => rw [hcd] at h; cases h
      | ok p =>
          obtain ⟨s2, ef⟩ := p
          rw [hcd] at h
          dsimp only at h
          simp only [Except.ok.injEq, Prod.mk.injEq] at h
          obtain ⟨h1, -⟩ := h; subst h1
          exact check_drop_co_cd st o d sensed ho hd s2 ef hcd
  | check_job =>
      simp only [MonitorOp.apply, Except.ok.injEq] at h
      have h2 := congrArg Prod.fst h
      dsimp only at h2
      rw [← h2]
      exact check_job_co_cd_nil st o ho hd
  | finalize_trip loc t cf =>
      simp only [MonitorOp.apply, Except.ok.injEq, Prod.mk.injEq] at h
      obtain ⟨h1, -⟩ := h; subst h1
      exact ⟨(finalize_trip_co _ _ _ _).trans ho, (finalize_trip_cd _ _ _ _).trans hd⟩
  | finalize_carry loc t n =>
      simp only [MonitorOp.apply, Except.ok.injEq, Prod.mk.injEq] at h
      obtain ⟨h1, -⟩ := h; subst h1; exact ⟨ho, hd⟩
  | check_remaining_tasks d =>
      simp only [MonitorOp.apply, Except.ok.injEq, Prod.mk.injEq] at h
      obtain ⟨h1, -⟩ := h; subst h1; exact ⟨ho, hd⟩

/-- Preservation of the cleared lists by any operation sequence. -/
theorem runOps_preserves_empty (o : Oracle) (ops : List MonitorOp) :
    ∀ (st : State), st.correct_origins = [] → st.correct_dests = [] →
      ∀ (st2 : State) (effs : List Effect), runOps o ops st = Except.ok (st2, effs) →
      st2.correct_origins = [] ∧ st2.correct_dests = [] := by
  induction ops with
  | nil =>
      intro st ho hd st2 effs h
      unfold runOps at h
      simp only [Except.ok.injEq, Prod.mk.injEq] at h
      obtain ⟨h1, -⟩ := h
      subst h1
      exact ⟨ho, hd⟩
  | cons op ops ih =>
      intro st ho hd st2 effs h
      unfold runOps at h
      cases ha : op.apply o st with
      | error e => rw [ha] at h; cases h
      | ok p =>
          obtain ⟨st1, effs1⟩ := p
          rw [ha] at h
          dsimp only at h
          cases hr : runOps o ops st1 with
          | error e => rw [hr] at h; cases h
          | ok p2 =>
              obtain ⟨st3, effs2⟩ := p2
              rw [hr] at h
              dsimp only at h
              simp only [Except.ok.injEq, Prod.mk.injEq] at h
              obtain ⟨h1, -⟩ := h
              subst h1
              have hstep := op_preserves_empty o op st ho hd st1 effs1 ha
              exact ih st1 hstep.1 hstep.2 st3 effs2 hr

/-- C5: when `check_job` completes the job (tasks exist, none is open,
no active alerts) it clears `tasks`, `correct_origins` and
`correct_dests`, and no sequence of monitor operations executed
afterwards can repopulate `correct_origins` or `correct_dests`. -/
theorem c5_completion_clears_correct_lists (st : State) (o : Oracle)
    (hne : st.tasks ≠ []) (hdone : has_active_tasks st.tasks = false)
    (halerts : o.has_active_alerts = false) :
    ((check_job st o).1.tasks = [] ∧ (check_job st o).1.correct_origins = [] ∧
     (check_job st o).1.correct_dests = []) ∧
    (∀ (o2 : Oracle) (ops : List MonitorOp) (st2 : State) (effs : List Effect),
      runOps o2 ops (check_job st o).1 = Except.ok (st2, effs) →
      st2.correct_origins = [] ∧ st2.correct_dests = []) := by
  have hclear : (check_job st o).1
      = { st with tasks := [], correct_origins := [], correct_dests := [] } := by
    unfold check_job
    rw [if_neg (by simp [List.isEmpty_iff, hne, hdone, halerts])]
  refine ⟨⟨by rw [hclear], by rw [hclear], by rw [hclear]⟩, ?_⟩
  intro o2 ops st2 effs h
  exact runOps_preserves_empty o2 ops _ (by rw [hclear]) (by rw [hclear]) st2 effs h

/-- Witness for C5: completing the one-task job of `state_done_w`
clears the lists, and the empty operation sequence keeps them empty. -/
theorem c5_completion_clears_correct_lists_witness :
    ((check_job state_done_w oracle_w).1.tasks = [] ∧
     (check_job state_done_w oracle_w).1.correct_origins = [] ∧
     (check_job state_done_w oracle_w).1.correct_dests = []) ∧
    ((check_job state_done_w oracle_w).1.correct_origins = [] ∧
     (check_job state_done_w oracle_w).1.correct_dests = []) :=
  ⟨(c5_completion_clears_correct_lists state_done_w oracle_w (by decide) (by decide)
      (by decide)).1,
   (c5_completion_clears_correct_lists state_done_w oracle_w (by decide) (by decide)
      (by decide)).2 oracle_w [] _ [] rfl⟩

/-- C10 (amended): every `check_drop` invocation that completes without
raising ends by invoking `check_job` and returns with
`latest_pickup_item_ids` cleared: the result is exactly a `check_job`
result with the pickup-id list emptied and the `check_job` effects as
the final effects.  An invocation whose classification loop raises
`KeyError` (a checked item engaging the alleged-wrong swap with a
completed prior task and matching alerts) aborts before lines 474-475,
so `check_job` is not invoked and the pickup ids survive. -/
theorem c10_check_drop_clears_pickup_ids (st : State) (o : Oracle) (drop_location : Nat)
    (sensed_items : List Item) (st2 : State) (effs : List Effect)
    (hok : check_drop st o drop_location sensed_items = Run.ok (st2, effs)) :
    st2.latest_pickup_item_ids = [] ∧
    ∃ (st4 : State) (effsPre : List Effect),
      st2 = { (check_job st4 o).1 with latest_pickup_item_ids := [] } ∧
      effs = effsPre ++ (check_job st4 o).2 := by
  unfold check_drop at hok
  cases hc : check_drop_classify st o drop_location sensed_items with
  | raised e acc => rw [hc] at hok; cases hok
  | ok acc =>
      rw [hc] at hok
      dsimp only at hok
      injection hok with hok
      have h1 := congrArg Prod.fst hok
      have h2 := congrArg Prod.snd hok
      simp only [check_drop_finish] at h1 h2
      refine ⟨by rw [← h1], _, _, h1.symm, h2.symm⟩

/-- C10 counterexample: dropping item 7 at location 8 when the job's
only task is complete and bound to it, with one matching alert row,
engages the alleged-wrong swap, which raises `KeyError` on the first
alert read: `check_drop` aborts, `check_job` is never invoked, and the
accumulated pickup ids `[7, 9]` survive instead of being cleared. -/
theorem c10_counterexample :
    check_drop state_swap_w oracle_alert_w 8 [item_w] =
      Run.raised "KeyError: correct_loc_id" (state_swap_w, []) ∧
    (check_drop state_swap_w oracle_alert_w 8 [item_w]).state.1.latest_pickup_item_ids
      = [7, 9] := by
  decide

/-- Witness for C10's amended theorem: a completing drop validation
clears the pickup-id list. -/
theorem c10_check_drop_clears_pickup_ids_witness :
    check_drop state_w oracle_w 6 [] = Run.ok (state_w, []) ∧
    state_w.latest_pickup_item_ids = [] := by
  have h : check_drop state_w oracle_w 6 [] = Run.ok (state_w, []) := by decide
  exact ⟨h, (c10_check_drop_clears_pickup_ids state_w oracle_w 6 [] state_w [] h).1⟩

theorem classify_item_correct_superset (st : State) (o : Oracle) (d : Nat)
    (acc : ClassAcc) (item : Item) (x : Item) (hx : x ∈ acc.correct) :
    x ∈ (classify_item st o d acc item).state.correct := by
  simp only [classify_item, check_alleged_wrong_item]
  repeat' split
  all_goals simp_all [Run.state]

theorem classify_item_effects_superset (st : State) (o : Oracle) (d : Nat)
    (acc : ClassAcc) (item : Item) (e : Effect) (he : e ∈ acc.effects) :
    e ∈ (classify_item st o d acc item).state.effects := by
  simp only [classify_item, check_alleged_wrong_item]
  repeat' split
  all_goals simp_all [Run.state]

theorem classify_fold_correct_superset (st : State) (o : Oracle) (d : Nat)
    (items : List Item) :
    ∀ (acc : ClassAcc) (x : Item), x ∈ acc.correct →
      x ∈ (classify_fold st o d items acc).state.correct := by
  induction items with
  | nil => intro acc x hx; exact hx
  | cons i t ih =>
      intro acc x hx
      have hstep := classify_item_correct_superset st o d acc i x hx
      simp only [classify_fold]
      cases hci : classify_item st o d acc i with
      | raised e a =>
          rw [hci] at hstep
          exact hstep
      | ok a =>
          rw [hci] at hstep
          exact ih a x hstep

theorem classify_fold_effects_superset (st : State) (o : Oracle) (d : Nat)
    (items : List Item) :
    ∀ (acc : ClassAcc) (e : Effect), e ∈ acc.effects →
      e ∈ (classify_fold st o d items acc).state.effects := by
  induction items with
  | nil => intro acc e he; exact he
  | cons i t ih =>
      intro acc e he
      have hstep := classify_item_effects_superset st o d acc i e he
      simp only [classify_fold]
      cases hci : classify_item st o d acc i with
      | raised e2 a =>
          rw [hci] at hstep
          exact hstep
      | ok a =>
          rw [hci] at hstep
          exact ih a e hstep

/-- The classification loop split at any point: a raise in the first
part propagates, otherwise the second part continues from its
accumulator. -/
theorem classify_fold_append (st : State) (o : Oracle) (d : Nat)
    (l1 l2 : List Item) (acc : ClassAcc) :
    classify_fold st o d (l1 ++ l2) acc =
      match classify_fold st o d l1 acc with
      | Run.raised e a => Run.raised e a
      | Run.ok a => classify_fold st o d l2 a := by
  induction l1 generalizing acc with
  | nil => rfl
  | cons x xs ih =>
      simp only [List.cons_append, classify_fold]
      cases classify_item st o d acc x with
      | raised e a => rfl
      | ok a => exact ih a

/-- A database write issued by the classification loop appears in
`check_drop`'s effect trace whether the validation completes or a later
item raises (the writes made before a raise are already committed). -/
theorem classify_effects_in_check_drop (st : State) (o : Oracle) (d : Nat)
    (sensed : List Item) (e : Effect)
    (he : e ∈ (check_drop_classify st o d sensed).state.effects) :
    e ∈ (check_drop st o d sensed).state.2 := by
  unfold check_drop
  cases hc : check_drop_classify st o d sensed with
  | raised e2 acc =>
      rw [hc] at he
      exact he
  | ok acc =>
      rw [hc] at he
      simp only [check_drop_finish]
      exact List.mem_append_left _ (List.mem_append_left _
        (List.mem_append_left _ (List.mem_append_left _ he)))

/-- The correct-classification step of `check_drop`'s loop: when the
filter passes and the per-task scan finds an open matching task, the
item is appended to the correct list and the location update and task
persistence are issued; no exception is raised. -/
theorem classify_item_correct_case (st : State) (o : Oracle) (d : Nat)
    (acc : ClassAcc) (item : Item) (task : Task)
    (hfilter : should_check_item_at_drop st o item = true)
    (hfind : (acc.tasks.filter (fun t => !t.complete)).find? (drop_match item d) = some task) :
    classify_item st o d acc item =
      Run.ok { acc with
               tasks := acc.tasks.replace task (finalize_task st task item),
               correct := acc.correct ++ [item],
               effects := acc.effects ++
                 [Effect.save_item_loc item.id d,
                  Effect.save_task (finalize_task st task item)] } := by
  unfold classify_item
  rw [if_neg (by simp [hfilter]), hfind]

/-- C1 (amended): in a drop validation at location D whose earlier
sensed items classify without raising, a sensed item that passes the
drop filter and for which an open task exists with the same model,
origin equal to the item's origin, dest equal to D and
`serial_lock = 0` is labeled correct; and the task that is bound to the
item's id, marked complete with a finish time and persisted via
`save_task` — with the item's stored location updated to D — is the
first open task matching model and origin whose dest equals D *or*,
when D is the NOE sink 79, possibly an earlier open matching task with
a different dest.  (An earlier item that engages the alleged-wrong
swap's alert reads raises `KeyError` and this item is never
examined.) -/
theorem c1_correct_item_classification (st : State) (o : Oracle) (d : Nat)
    (pre suf : List Item) (item : Item) (accPre : ClassAcc)
    (hpre : check_drop_classify st o d pre = Run.ok accPre)
    (hfilter : should_check_item_at_drop st o item = true)
    (hmatch : ∃ t ∈ accPre.tasks,
        t.complete = false ∧ t.model = item.model ∧ t.origin = item.item_origin ∧
        t.dest = d ∧ item.serial_lock = 0) :
    item ∈ (check_drop_classify st o d (pre ++ item :: suf)).state.correct ∧
    ∃ task,
      (accPre.tasks.filter (fun t => !t.complete)).find? (drop_match item d) = some task ∧
      task.complete = false ∧ task.model = item.model ∧ task.origin = item.item_origin ∧
      (task.dest = d ∨ d = NOE_loc) ∧
      (finalize_task st task item).complete = true ∧
      (finalize_task st task item).item_id = some item.id ∧
      (finalize_task st task item).finish_time = some st.curr_loc_time ∧
      Effect.save_task (finalize_task st task item)
        ∈ (check_drop st o d (pre ++ item :: suf)).state.2 ∧
      Effect.save_item_loc item.id d
        ∈ (check_drop st o d (pre ++ item :: suf)).state.2 := by
  obtain ⟨t0, ht0mem, ht0c, ht0m, ht0o, ht0d, hserial⟩ := hmatch
  have ht0p : drop_match item d t0 = true := by
    simp [drop_match, ht0m, ht0o, ht0d, hserial]
  have ht0f : t0 ∈ accPre.tasks.filter (fun t => !t.complete) := by
    simp [List.mem_filter, ht0mem, ht0c]
  obtain ⟨task, hfind⟩ := Option.isSome_iff_exists.mp
    (List.find?_isSome.mpr ⟨t0, ht0f, ht0p⟩)
  have htask_mem := List.mem_of_find?_eq_some hfind
  have htask_p := List.find?_some hfind
  simp only [List.mem_filter, Bool.not_eq_true'] at htask_mem
  simp only [drop_match, Bool.and_eq_true, Bool.or_eq_true, beq_iff_eq] at htask_p
  have hpre2 : classify_fold st o d pre
      { tasks := st.tasks, correct := [], returned := [], wrong := [], effects := [] }
      = Run.ok accPre := hpre
  have hfold : check_drop_classify st o d (pre ++ item :: suf)
      = classify_fold st o d (item :: suf) accPre := by
    rw [check_drop_classify, classify_fold_append, hpre2]
  have hstep := classify_item_correct_case st o d accPre item task hfilter hfind
  have hstep2 : classify_fold st o d (item :: suf) accPre
      = classify_fold st o d suf
          { accPre with
            tasks := accPre.tasks.replace task (finalize_task st task item),
            correct := accPre.correct ++ [item],
            effects := accPre.effects ++
              [Effect.save_item_loc item.id d,
               Effect.save_task (finalize_task st task item)] } := by
    simp only [classify_fold, hstep]
  have hcorrect : item ∈ (check_drop_classify st o d (pre ++ item :: suf)).state.correct := by
    rw [hfold, hstep2]
    apply classify_fold_correct_superset
    simp
  have heff : ∀ e : Effect,
      e ∈ [Effect.save_item_loc item.id d,
           Effect.save_task (finalize_task st task item)] →
      e ∈ (check_drop st o d (pre ++ item :: suf)).state.2 := by
    intro e he
    apply classify_effects_in_check_drop
    rw [hfold, hstep2]
    apply classify_fold_effects_superset
    simp only [List.mem_append]
    exact Or.inr he
  refine ⟨hcorrect, task, hfind, htask_mem.2, htask_p.1.1.1.symm, htask_p.1.2.symm, ?_,
    rfl, rfl, rfl, heff _ (by simp), heff _ (by simp)⟩
  rcases htask_p.2 with h | h
  · exact Or.inl h.symm
  · exact Or.inr h

/-- C1 counterexample: dropping item 7 (model A, origin 5, fungible) at
the NOE sink D = 79, with T1 = (model A, 5 → 6) listed before
T2 = (model A, 5 → 79): the claim's "first such task" is T2, but the
code completes T1 — whose dest is not 79 — and leaves T2 open. -/
theorem c1_counterexample :
    should_check_item_at_drop state_w oracle_w item_w = true ∧
    (∃ t ∈ state_w.tasks, t.complete = false ∧ t.model = item_w.model ∧
      t.origin = item_w.item_origin ∧ t.dest = 79 ∧ item_w.serial_lock = 0) ∧
    (∀ t ∈ (check_drop_classify state_w oracle_w 79 [item_w]).state.tasks,
      t.task_id = 2 → t.complete = false) ∧
    (∃ t ∈ (check_drop_classify state_w oracle_w 79 [item_w]).state.tasks,
      t.task_id = 1 ∧ t.complete = true ∧ t.item_id = some item_w.id ∧ t.dest = 6) := by
  decide

/-- Witness for C1's amended theorem: with no earlier items the
classification trivially completes, and dropping item 7 at location 6
labels it correct. -/
theorem c1_correct_item_classification_witness :
    item_w ∈ (check_drop_classify state_w oracle_w 6 [item_w]).state.correct :=
  (c1_correct_item_classification state_w oracle_w 6 [] [] item_w acc_w (by decide)
    (by decide)
    ⟨Task.new 1 "A" 5 6, by decide, by decide, by decide, by decide, by decide, by decide⟩).1

/-- C2: the alleged-wrong swap of `check_alleged_wrong_item` cannot run
against the repository's data layer.  Serial-locked items (and likewise
items with no completed prior task, or with no matching alert) are
confirmed wrong as the claim says; but on both engaged branches the
claim fails: `get_model_alerts` (`database.py` line 413) projects only
`a.id`, so with a completed prior task and a non-empty alert list the
first alert read raises `KeyError` — `correct_loc_id` (line 328) when
the prior task's origin differs from the drop location, `item_id`
(line 338) when it equals it — instead of relabeling the item,
rebinding and persisting tasks and cancelling the alert. -/
theorem c2_swap_raises_keyerror :
    (check_alleged_wrong_item acc_done_w item_locked_w 8 [alert_row_w]).state.wrong
      = [item_locked_w] ∧
    check_alleged_wrong_item acc_done_w item_w 8 [alert_row_w] =
      Run.raised "KeyError: correct_loc_id" acc_done_w ∧
    check_alleged_wrong_item acc_done_w item_w 5 [alert_row_w] =
      Run.raised "KeyError: item_id" acc_done_w := by
  decide

theorem map_replace_eq {α β : Type} [DecidableEq α] (f : α → β) (a b : α) (hf : f a = f b) :
    ∀ l : List α, (l.replace a b).map f = l.map f := by
  intro l
  induction l with
  | nil => rfl
  | cons x xs ih =>
      rw [List.replace_cons]
      cases hax : a == x with
      | true =>
          have hx : a = x := eq_of_beq hax
          simp only [List.map_cons]
          rw [← hf, hx]
      | false => simp only [List.map_cons, ih]

theorem map_ids_replace (l : List Task) (a b : Task) (h : a.task_id = b.task_id) :
    (l.replace a b).map (fun t => t.task_id) = l.map (fun t => t.task_id) :=
  map_replace_eq _ a b h l

theorem map_ids_replace2 (l : List Task) (a b c d : Task) (h1 : a.task_id = b.task_id)
    (h2 : c.task_id = d.task_id) :
    ((l.replace a b).replace c d).map (fun t => t.task_id) = l.map (fun t => t.task_id) :=
  (map_ids_replace _ c d h2).trans (map_ids_replace l a b h1)

theorem classify_item_task_ids (st : State) (o : Oracle) (d : Nat)
    (acc : ClassAcc) (item : Item) :
    (classify_item st o d acc item).state.tasks.map (fun t => t.task_id)
      = acc.tasks.map (fun t => t.task_id) := by
  simp only [classify_item, check_alleged_wrong_item]
  repeat' split
  all_goals first
    | rfl
    | (exact map_ids_replace _ _ _ rfl)
    | (exact map_ids_replace2 _ _ _ _ _ rfl rfl)

theorem classify_fold_task_ids (st : State) (o : Oracle) (d : Nat) (items : List Item) :
    ∀ acc : ClassAcc,
      (classify_fold st o d items acc).state.tasks.map (fun t => t.task_id)
        = acc.tasks.map (fun t => t.task_id) := by
  induction items with
  | nil => intro acc; rfl
  | cons i t ih =>
      intro acc
      have hstep := classify_item_task_ids st o d acc i
      simp only [classify_fold]
      cases hci : classify_item st o d acc i with
      | raised e a =>
          rw [hci] at hstep
          exact hstep
      | ok a =>
          rw [hci] at hstep
          dsimp only
          rw [ih a]
          exact hstep

theorem erase_eq_filter_of_nodup_ids (task : Task) :
    ∀ (R : List Task), task ∈ R → ((R.map (fun t => t.task_id)).Nodup) →
      R.erase task = R.filter (fun t => !(t.task_id == task.task_id)) := by
  intro R
  induction R with
  | nil => intro h; cases h
  | cons x xs ih =>
      intro hmem hnodup
      rw [List.map_cons, List.nodup_cons] at hnodup
      rw [List.erase_cons]
      by_cases hx : x = task
      · subst hx
        rw [if_pos (by simp)]
        have hp : ¬ ((!(x.task_id == x.task_id)) = true) := by simp
        rw [List.filter_cons, if_neg hp]
        symm
        apply List.filter_eq_self.mpr
        intro t ht
        simp only [Bool.not_eq_true', beq_eq_false_iff_ne, ne_eq]
        intro he
        exact hnodup.1 (he ▸ List.mem_map.mpr ⟨t, ht, rfl⟩)
      · have hmem2 : task ∈ xs := by
          rcases List.mem_cons.mp hmem with h | h
          · exact absurd h.symm hx
          · exact h
        have hid : x.task_id ≠ task.task_id := by
          intro he
          exact hnodup.1 (he ▸ List.mem_map.mpr ⟨task, hmem2, rfl⟩)
        rw [if_neg (by simp [hx])]
        have hp : (!(x.task_id == task.task_id)) = true := by simp [hid]
        rw [List.filter_cons, if_pos hp]
        rw [ih hmem2 hnodup.2]

theorem contains_append_singleton (l : List Nat) (a b : Nat) :
    (l ++ [b]).contains a = (l.contains a || a == b) := by
  induction l with
  | nil => cases hab : a == b <;> simp_all [List.contains_cons]
  | cons x xs ih =>
      rw [List.cons_append, List.contains_cons, List.contains_cons, ih, Bool.or_assoc]

theorem filter_checked_snoc (inc : List Task) (checked : List Nat) (task : Task)
    (hnodup : (inc.map (fun t => t.task_id)).Nodup)
    (hmem : task ∈ inc.filter (fun t => !checked.contains t.task_id)) :
    inc.filter (fun t => !(checked ++ [task.task_id]).contains t.task_id)
      = (inc.filter (fun t => !checked.contains t.task_id)).erase task := by
  have hnodupR : (((inc.filter (fun t => !checked.contains t.task_id)).map
      (fun t => t.task_id))).Nodup :=
    hnodup.sublist ((List.filter_sublist inc).map _)
  rw [erase_eq_filter_of_nodup_ids task _ hmem hnodupR, List.filter_filter]
  apply List.filter_congr
  intro t ht
  rw [contains_append_singleton]
  cases hc : checked.contains t.task_id <;> cases hi : t.task_id == task.task_id <;>
    simp [hc, hi]

theorem assign_eq_spec_gen (inc : List Task)
    (hnodup : (inc.map (fun t => t.task_id)).Nodup) :
    ∀ (ws : List Item) (checked : List Nat),
      assign_wrong_locs inc checked ws =
        assign_wrong_locs_spec (inc.filter (fun t => !checked.contains t.task_id)) ws := by
  intro ws
  induction ws with
  | nil => intro checked; rfl
  | cons w ws ih =>
      intro checked
      simp only [assign_wrong_locs, assign_wrong_locs_spec]
      cases hf : (inc.filter (fun t => !checked.contains t.task_id)).find?
          (wrong_task_match w) with
      | none =>
          dsimp only
          rw [ih checked]
      | some task =>
          dsimp only
          have hmem := List.mem_of_find?_eq_some hf
          rw [ih (checked ++ [task.task_id]), filter_checked_snoc inc checked task hnodup hmem]

/-- The reservation loop of `check_drop` refines the spec's statement:
tracking reserved task ids is the same as removing each reserved task
from the remaining list, whenever task ids are unique. -/
theorem assign_eq_spec (inc : List Task)
    (hnodup : (inc.map (fun t => t.task_id)).Nodup) (ws : List Item) :
    assign_wrong_locs inc [] ws = assign_wrong_locs_spec inc ws := by
  rw [assign_eq_spec_gen inc hnodup ws []]
  congr 1
  apply List.filter_eq_self.mpr
  intro t ht
  rfl

theorem classify_item_no_drop_alert (st : State) (o : Oracle) (d : Nat)
    (acc : ClassAcc) (item : Item) :
    (classify_item st o d acc item).state.effects.filter is_drop_alert
      = acc.effects.filter is_drop_alert := by
  simp only [classify_item, check_alleged_wrong_item]
  repeat' split
  all_goals simp [List.filter_append, is_drop_alert, Run.state]

theorem classify_fold_no_drop_alert (st : State) (o : Oracle) (d : Nat)
    (items : List Item) :
    ∀ acc : ClassAcc,
      (classify_fold st o d items acc).state.effects.filter is_drop_alert
        = acc.effects.filter is_drop_alert := by
  induction items with
  | nil => intro acc; rfl
  | cons i t ih =>
      intro acc
      have hstep := classify_item_no_drop_alert st o d acc i
      simp only [classify_fold]
      cases hci : classify_item st o d acc i with
      | raised e a =>
          rw [hci] at hstep
          exact hstep
      | ok a =>
          rw [hci] at hstep
          dsimp only
          rw [ih a]
          exact hstep

theorem filter_drop_ite_cancel (c : Prop) [Decidable c] (l : List Item) :
    (if c then [Effect.cancel_item_alerts l] else []).filter is_drop_alert = [] := by
  split <;> rfl

theorem filter_drop_correct_effects (c : Prop) [Decidable c] (l : List Item)
    (s : State) (d : Nat) :
    (if c then [Effect.cancel_item_alerts l] ++ check_remaining_tasks s d
     else []).filter is_drop_alert = [] := by
  split
  · unfold check_remaining_tasks
    split <;> rfl
  · rfl

theorem filter_drop_ite_cancel2 (c : Prop) [Decidable c] (l : List Item) :
    (if c then [] else [Effect.cancel_item_alerts l]).filter is_drop_alert = [] := by
  split <;> rfl

theorem filter_drop_correct_effects2 (c : Prop) [Decidable c] (l : List Item)
    (s : State) (d : Nat) :
    (if c then [] else [Effect.cancel_item_alerts l] ++ check_remaining_tasks s d).filter
      is_drop_alert = [] := by
  split
  · rfl
  · unfold check_remaining_tasks
    split <;> rfl

theorem filter_drop_check_job (s : State) (o : Oracle) :
    (check_job s o).2.filter is_drop_alert = [] := by
  unfold check_job
  split <;> rfl

/-- C3 (amended): in every drop validation whose classification
completes without raising — in particular whenever no checked item
reaches the alleged-wrong swap's alert reads — the wrong-item location
assignment of `check_drop` behaves as the spec describes it (first
remaining open matching task's dest, one reservation per task, own
origin as the fallback — stated as equality with the spec-worded
function, under the database invariant that task ids are unique), and
the only wrong-item alert write of the validation is a single
`create_alert` carrying the assigned wrong-item list, typed
`drop_items` when the drop location is a correct destination and
`drop_location` otherwise, with no such write when no wrong items
exist.  A validation in which a checked item raises `KeyError` aborts
before the assignment loop and issues no such alert. -/
theorem c3_wrong_item_assignment_and_alert (st : State) (o : Oracle) (d : Nat)
    (sensed_items : List Item) (acc : ClassAcc)
    (hids : (st.tasks.map (fun t => t.task_id)).Nodup)
    (hacc : check_drop_classify st o d sensed_items = Run.ok acc) :
    (assign_wrong_locs (acc.tasks.filter (fun t => !t.complete)) [] acc.wrong
      = assign_wrong_locs_spec (acc.tasks.filter (fun t => !t.complete)) acc.wrong) ∧
    ((check_drop st o d sensed_items).state.2.filter is_drop_alert =
      (if (assign_wrong_locs (acc.tasks.filter (fun t => !t.complete)) [] acc.wrong).isEmpty
       then []
       else [Effect.create_alert d
         (if st.correct_dests.contains d then "drop_items" else "drop_location")
         (some (assign_wrong_locs (acc.tasks.filter (fun t => !t.complete)) [] acc.wrong))
         st.curr_loc_time])) := by
  have h0 : (check_drop_classify st o d sensed_items).state.tasks.map (fun t => t.task_id)
      = st.tasks.map (fun t => t.task_id) := classify_fold_task_ids st o d sensed_items _
  rw [hacc] at h0
  have hids2 : ((acc.tasks.filter (fun t => !t.complete)).map (fun t => t.task_id)).Nodup := by
    have h1 : (acc.tasks.map (fun t => t.task_id)).Nodup := by
      rw [show acc.tasks.map (fun t => t.task_id) = st.tasks.map (fun t => t.task_id) from h0]
      exact hids
    exact h1.sublist ((List.filter_sublist _).map _)
  refine ⟨assign_eq_spec _ hids2 _, ?_⟩
  have haccf : acc.effects.filter is_drop_alert = [] := by
    have h2 : (check_drop_classify st o d sensed_items).state.effects.filter is_drop_alert
        = (({ tasks := st.tasks, correct := [], returned := [], wrong := [],
              effects := [] } : ClassAcc)).effects.filter is_drop_alert :=
      classify_fold_no_drop_alert st o d sensed_items _
    rw [hacc] at h2
    exact h2
  have hcd : check_drop st o d sensed_items = Run.ok (check_drop_finish st o d acc) := by
    unfold check_drop
    rw [hacc]
  rw [hcd]
  cases hW : (assign_wrong_locs (acc.tasks.filter (fun t => !t.complete)) [] acc.wrong).isEmpty with
  | true =>
      simp only [Run.state, check_drop_finish, List.filter_append, haccf, filter_drop_ite_cancel,
        filter_drop_correct_effects, filter_drop_check_job, List.nil_append, List.append_nil]
      rw [hW]
      simp
  | false =>
      simp only [Run.state, check_drop_finish, List.filter_append, haccf, filter_drop_ite_cancel,
        filter_drop_correct_effects, filter_drop_check_job, List.nil_append, List.append_nil]
      rw [hW]
      rw [if_pos (show (!false) = true by decide), if_neg (show ¬ (false = true) by decide)]
      simp only [apply_ite State.correct_dests, apply_ite State.curr_loc_time, ite_self]
      cases hcdst : st.correct_dests.contains d <;> simp [hcdst, is_drop_alert]

/-- C3 counterexample: dropping the serial-locked item 9 — which the
classification loop labels wrong — together with the swap-path item 7
at location 8: the second item raises `KeyError` on the alert read, the
validation aborts before the correct-location assignment loop, and no
alert carrying the wrong items is created. -/
theorem c3_counterexample :
    (check_drop_classify state_swap_w oracle_alert_w 8 [item_locked_w, item_w]).state.wrong
      = [item_locked_w] ∧
    check_drop state_swap_w oracle_alert_w 8 [item_locked_w, item_w] =
      Run.raised "KeyError: correct_loc_id" (state_swap_w, []) ∧
    (check_drop state_swap_w oracle_alert_w 8 [item_locked_w, item_w]).state.2.filter
      is_drop_alert = [] := by
  decide

/-- Witness for C3 at a completing drop with no sensed items: no wrong
items, and no wrong-item alert write. -/
theorem c3_wrong_item_assignment_and_alert_witness :
    (check_drop state_w oracle_w 6 []).state.2.filter is_drop_alert =
      (if (assign_wrong_locs (acc_w.tasks.filter (fun t => !t.complete)) [] acc_w.wrong).isEmpty
       then []
       else [Effect.create_alert 6
         (if state_w.correct_dests.contains 6 then "drop_items" else "drop_location")
         (some (assign_wrong_locs (acc_w.tasks.filter (fun t => !t.complete)) [] acc_w.wrong))
         state_w.curr_loc_time]) :=
  (c3_wrong_item_assignment_and_alert state_w oracle_w 6 [] acc_w (by decide) (by decide)).2

end JobMon
